import Mathlib

/-!
Verification of the router subsystem of the azd Azure MCP aggregator.

The definitions below are a shallow embedding of the Go router
(`mcp.azure/internal/cmd/server.go`, learn/invoke variant, together with
`internal/metadata`) and, where a claim concerns the C# host variant, of
`mcp.azure.csharp/Tools/AzureTool.cs` and `Metadata/*.cs`.  External
collaborators (the `azd` extension manager, spawned MCP client processes,
the JSON sampling peer) are modelled as explicit oracle parameters; the
router logic itself is translated faithfully from the source.
-/

set_option autoImplicit false

namespace AzdMcp

/-- Association-list lookup, modelling Go `m[k]` / C# `TryGetValue` on a
string-keyed map. -/
def lookupAssoc {α : Type} : List (String × α) → String → Option α
  | [], _ => none
  | (k', v) :: rest, k => if k' = k then some v else lookupAssoc rest k

/-- Association-list insert-or-overwrite, modelling Go `m[k] = v` / C#
`map[k] = v` on a string-keyed map. -/
def insertOverwrite {α : Type} : List (String × α) → String → α → List (String × α)
  | [], k, v => [(k, v)]
  | (k', v') :: rest, k, v =>
    if k' = k then (k, v) :: rest else (k', v') :: insertOverwrite rest k v

@[simp]
theorem lookupAssoc_insertOverwrite_self {α : Type} (m : List (String × α)) (k : String) (v : α) :
    lookupAssoc (insertOverwrite m k v) k = some v := by
  induction m with
  | nil => simp [insertOverwrite, lookupAssoc]
  | cons hd tl ih =>
    obtain ⟨k', v'⟩ := hd
    by_cases h : k' = k
    · simp [insertOverwrite, lookupAssoc, h]
    · simp [insertOverwrite, lookupAssoc, h, ih]

theorem lookupAssoc_insertOverwrite_ne {α : Type} (m : List (String × α)) (k k' : String) (v : α)
    (h : k ≠ k') : lookupAssoc (insertOverwrite m k v) k' = lookupAssoc m k' := by
  induction m with
  | nil => simp [insertOverwrite, lookupAssoc, h]
  | cons hd tl ih =>
    obtain ⟨k₀, v₀⟩ := hd
    by_cases h₀ : k₀ = k
    · subst h₀
      simp [insertOverwrite, lookupAssoc, h]
    · simp only [insertOverwrite, if_neg h₀]
      by_cases h₁ : k₀ = k'
      · simp [lookupAssoc, h₁]
      · simp [lookupAssoc, h₁, ih]

/-! ## Provider metadata (`internal/metadata`, `Metadata/*.cs`)

`mcpExtensionMetadata` mirrors the Go struct of the same name (an azd
extension record from `azd ext list`); `mcpJsonTool` mirrors the bundled
`mcp.json` entry.  `ToolMetadata` is the interface over the two kinds. -/

structure mcpExtensionMetadata where
  ID : String
  Description : String
  Namespace : String
  Version : String
  LatestVersion : String
  Installed : Bool
  deriving DecidableEq

structure mcpJsonTool where
  Name : String
  Description : String
  URL : String
  deriving DecidableEq

inductive ToolMetadata where
  | azd (extension : mcpExtensionMetadata)
  | external (tool : mcpJsonTool)
  deriving DecidableEq

/-- Go `strings.TrimPrefix`: drop `pre` from the front of `s` when it is a
prefix, otherwise return `s` unchanged.  (The prefix test is done on the
character lists so that concrete instances evaluate in the kernel.) -/
def dropPre (pre s : String) : String :=
  if pre.data.isPrefixOf s.data then s.drop pre.length else s

/-- The map key under which a tool is registered: `Tool().Name` /
`Metadata().Name` in the Go source (`strings.TrimPrefix(ID, "mcp.")` for azd
extensions, the literal `Name` field for bundled `mcp.json` entries). -/
def ToolMetadata.name : ToolMetadata → String
  | .azd e => dropPre "mcp." e.ID
  | .external t => t.Name

/-- `toolMetadataMap` construction in `newServerCommand`
(`server.go`): `allTools := append(azdTools, externalTools...)` followed by
`for _, t := range allTools { toolMetadataMap[meta.Name] = t }`. -/
def buildToolMetadataMap (azdTools externalTools : List ToolMetadata) :
    List (String × ToolMetadata) :=
  (azdTools ++ externalTools).foldl (fun m t => insertOverwrite m t.name t) []

/-- The last element of `ts` whose registration name is `k`, if any. -/
def lastWith : List ToolMetadata → String → Option ToolMetadata
  | [], _ => none
  | t :: ts, k =>
    match lastWith ts k with
    | some r => some r
    | none => if t.name = k then some t else none

theorem lookupAssoc_foldl_insert (ts : List ToolMetadata) (m : List (String × ToolMetadata))
    (k : String) :
    lookupAssoc (ts.foldl (fun m t => insertOverwrite m t.name t) m) k =
      match lastWith ts k with
      | some r => some r
      | none => lookupAssoc m k := by
  induction ts generalizing m with
  | nil => simp [lastWith]
  | cons t ts ih =>
    simp only [List.foldl_cons, lastWith]
    rw [ih]
    cases hlast : lastWith ts k with
    | some r => simp
    | none =>
      by_cases h : t.name = k
      · subst h
        simp [lookupAssoc_insertOverwrite_self]
      · simp [h, lookupAssoc_insertOverwrite_ne _ _ _ _ h]

/-! ## Claim C3: which entry survives the catalog merge -/

/-- A concrete azd-extension record used in merge examples: registered under
the name `storage` (its `ID` with the `mcp.` front dropped). -/
def azdStorage : ToolMetadata :=
  .azd ⟨"mcp.storage", "Azure storage via azd", "azure.storage", "1.0.0", "1.0.0", true⟩

/-- A concrete bundled `mcp.json` entry with the same registration name
`storage`. -/
def externalStorage : ToolMetadata :=
  .external ⟨"storage", "Remotely hosted storage server", "https://example.invalid/mcp"⟩

/-- Claim C3, counterexample: when the same id is produced both by the
extension-manager query (`azdStorage`) and by the bundled manifest
(`externalStorage`), the merged catalog retains the bundled-manifest entry,
not the extension-manager entry: the bundled entries are inserted after the
azd entries and `toolMetadataMap[meta.Name] = t` overwrites. -/
theorem merge_retains_bundled_entry_example :
    lookupAssoc (buildToolMetadataMap [azdStorage] [externalStorage]) "storage" =
      some externalStorage ∧ externalStorage ≠ azdStorage := by
  constructor
  · decide
  · decide

/-- Claim C3, amended: in the merged discovery catalog the *later* source
wins.  `allTools := append(azdTools, externalTools...)` is folded into the
map with overwriting inserts, so a name defined by the bundled manifest
(`externalTools`) always shadows an extension-manager (`azdTools`) entry of
the same name; an extension-manager entry is retained only when no bundled
entry uses its name. -/
theorem merge_last_source_wins (azdTools externalTools : List ToolMetadata) (k : String) :
    lookupAssoc (buildToolMetadataMap azdTools externalTools) k =
      match lastWith externalTools k with
      | some e => some e
      | none => lastWith azdTools k := by
  unfold buildToolMetadataMap
  rw [List.foldl_append, lookupAssoc_foldl_insert, lookupAssoc_foldl_insert]
  cases lastWith externalTools k with
  | some e => rfl
  | none =>
    cases lastWith azdTools k with
    | some a => rfl
    | none => rfl

/-! ## Client establishment (`AzdToolMetadata.CreateClient`)

The Go method shells out to the azd extension manager and spawns the
provider's server process.  The external collaborators are oracle fields of
`CreateEnv`: `NewVersion` is `semver.NewVersion` (`none` = parse error),
`GreaterThan` is `latestVer.GreaterThan(currentVer)`, `RunInstall` /
`RunUpgrade` are `azd ext install/upgrade <id>` (`.error` = non-zero exit),
and `StartAndInit` is `client.NewStdioMCPClient("azd", nil, args...)`
followed by `Initialize` (`.error` = spawn or handshake failure).  The
returned list records the externally observable establishment side effects
in order. -/

inductive SideEffect where
  | install (id : String)
  | upgrade (id : String)
  | spawn (cmd : String) (args : List String)
  deriving DecidableEq

/-- Helper for `splitDot`: split a character list at `sep`, `acc` holding the
(reversed) characters of the piece being read. -/
def splitCharAux (sep : Char) : List Char → List Char → List (List Char)
  | [], acc => [acc.reverse]
  | c :: rest, acc =>
    if c = sep then acc.reverse :: splitCharAux sep rest []
    else splitCharAux sep rest (c :: acc)

/-- Go `strings.Split(s, ".")` (one-character separator), on the character
list so that concrete instances evaluate in the kernel: `"" ↦ [""]`,
`"a.b" ↦ ["a", "b"]`, `"a." ↦ ["a", ""]`. -/
def splitDot (s : String) : List String :=
  (splitCharAux '.' s.data []).map String.mk

structure CreateEnv (V C : Type) where
  NewVersion : String → Option V
  GreaterThan : V → V → Bool
  RunInstall : String → Except String Unit
  RunUpgrade : String → Except String Unit
  StartAndInit : List String → Except String C

structure AzdToolMetadata where
  extension : mcpExtensionMetadata
  deriving DecidableEq

/-- The install-or-upgrade prelude of `AzdToolMetadata.CreateClient` (Go):
upgrade an installed extension when the version strings differ, both parse as
semantic versions, and the latest is strictly greater; install an
uninstalled one; a non-zero exit of either `azd ext` command is an error. -/
def ensureInstalled {V C : Type} (env : CreateEnv V C) (ext : mcpExtensionMetadata) :
    Except String Unit × List SideEffect :=
  if ext.Installed then
    if ext.LatestVersion ≠ ext.Version then
      match env.NewVersion ext.Version, env.NewVersion ext.LatestVersion with
      | some currentVer, some latestVer =>
        if env.GreaterThan latestVer currentVer then
          match env.RunUpgrade ext.ID with
          | .ok _ => (Except.ok (), [SideEffect.upgrade ext.ID])
          | .error e =>
            (Except.error ("failed to upgrade extension " ++ ext.ID ++ ": " ++ e),
              [SideEffect.upgrade ext.ID])
        else (Except.ok (), [])
      | _, _ => (Except.ok (), [])
    else (Except.ok (), [])
  else
    match env.RunInstall ext.ID with
    | .ok _ => (Except.ok (), [SideEffect.install ext.ID])
    | .error e =>
      (Except.error ("failed to install extension " ++ ext.ID ++ ": " ++ e),
        [SideEffect.install ext.ID])

/-- Faithful translation of `AzdToolMetadata.CreateClient` (Go): run the
install-or-upgrade prelude, reject a namespace with fewer than two
dot-separated parts, then spawn `azd <nsParts...> server start` and run the
MCP initialization handshake over its standard streams. -/
def AzdToolMetadata.CreateClient {V C : Type} (env : CreateEnv V C) (a : AzdToolMetadata) :
    Except String C × List SideEffect :=
  let ext := a.extension
  match ensureInstalled env ext with
  | (Except.error e, effs) => (Except.error e, effs)
  | (Except.ok _, effs) =>
    let nsParts := splitDot ext.Namespace
    if nsParts.length < 2 then
      (Except.error ("invalid namespace for extension: " ++ ext.Namespace), effs)
    else
      let args := nsParts ++ ["server", "start"]
      match env.StartAndInit args with
      | .ok c => (Except.ok c, effs ++ [SideEffect.spawn "azd" args])
      | .error e =>
        (Except.error ("failed to start MCP client for " ++ ext.ID ++ ": " ++ e),
          effs ++ [SideEffect.spawn "azd" args])

/-- The install/upgrade steps §4.2 of the spec prescribes before the spawn,
written from the claim's words (install when not installed; upgrade when the
installed version is strictly below the latest under the semantic-version
comparison; otherwise neither): the source-derived `CreateClient` is
compared against this. -/
def specInstallUpgradeSteps {V C : Type} (env : CreateEnv V C) (ext : mcpExtensionMetadata) :
    List SideEffect :=
  if ext.Installed then
    match env.NewVersion ext.Version, env.NewVersion ext.LatestVersion with
    | some currentVer, some latestVer =>
      if env.GreaterThan latestVer currentVer then [SideEffect.upgrade ext.ID] else []
    | _, _ => []
  else [SideEffect.install ext.ID]

theorem ensureInstalled_eq_spec {V C : Type} (env : CreateEnv V C) (ext : mcpExtensionMetadata)
    (hirr : ∀ v : V, env.GreaterThan v v = false)
    (hinstall : env.RunInstall ext.ID = .ok ())
    (hupgrade : env.RunUpgrade ext.ID = .ok ()) :
    ensureInstalled env ext = (Except.ok (), specInstallUpgradeSteps env ext) := by
  unfold ensureInstalled specInstallUpgradeSteps
  cases hI : ext.Installed with
  | false => simp [hinstall]
  | true =>
    simp only [if_true]
    by_cases hv : ext.LatestVersion = ext.Version
    · rw [if_neg (by simp [hv]), hv]
      cases hp : env.NewVersion ext.Version with
      | none => rfl
      | some v => simp [hirr v]
    · rw [if_pos hv]
      cases hp1 : env.NewVersion ext.Version with
      | none => rfl
      | some currentVer =>
        cases hp2 : env.NewVersion ext.LatestVersion with
        | none => rfl
        | some latestVer =>
          by_cases hgt : env.GreaterThan latestVer currentVer
          · simp [hgt, hupgrade]
          · simp [hgt]

/-- Claim C8: when creating a client for a subprocess-kind (azd extension)
provider, the establishment side effects are exactly the install/upgrade
steps the spec prescribes — install when not installed, upgrade when
installed and the installed version is strictly below the latest under the
(irreflexive) semantic-version comparison, neither otherwise — followed by
the spawn of the provider server process with the fixed two-token startup
argument suffix `server start`. -/
theorem CreateClient_install_upgrade_policy {V C : Type} (env : CreateEnv V C)
    (a : AzdToolMetadata)
    (hirr : ∀ v : V, env.GreaterThan v v = false)
    (hinstall : env.RunInstall a.extension.ID = .ok ())
    (hupgrade : env.RunUpgrade a.extension.ID = .ok ())
    (hns : 2 ≤ (splitDot a.extension.Namespace).length) :
    (a.CreateClient env).2 =
      specInstallUpgradeSteps env a.extension ++
        [SideEffect.spawn "azd" (splitDot a.extension.Namespace ++ ["server", "start"])] := by
  simp only [AzdToolMetadata.CreateClient]
  rw [ensureInstalled_eq_spec env a.extension hirr hinstall hupgrade]
  simp only [if_neg (Nat.not_lt.mpr hns)]
  cases hs : env.StartAndInit (splitDot a.extension.Namespace ++ ["server", "start"]) with
  | ok c => rfl
  | error e => rfl

/-- Concrete toy semantic-version oracle for witnesses: versions are the two
literals below, compared as naturals. -/
def verFixParse : String → Option Nat :=
  fun s => if s = "1.2.3" then some 1 else if s = "2.0.0" then some 2 else none

def envUpgradeFix : CreateEnv Nat Nat :=
  ⟨verFixParse, fun a b => decide (b < a), fun _ => .ok (), fun _ => .ok (), fun _ => .ok 42⟩

def extOutdatedFix : mcpExtensionMetadata :=
  ⟨"mcp.storage", "Azure storage via azd", "azure.storage", "1.2.3", "2.0.0", true⟩

/-- Witness for claim C8 at a concrete installed-but-outdated extension. -/
theorem CreateClient_install_upgrade_policy_witness :
    ((AzdToolMetadata.mk extOutdatedFix).CreateClient envUpgradeFix).2 =
      specInstallUpgradeSteps envUpgradeFix extOutdatedFix ++
        [SideEffect.spawn "azd" (splitDot extOutdatedFix.Namespace ++ ["server", "start"])] :=
  CreateClient_install_upgrade_policy envUpgradeFix ⟨extOutdatedFix⟩
    (fun v => by simp [envUpgradeFix]) rfl rfl (by decide)

/-- Claim C10: in the Go `AzdToolMetadata.CreateClient`, for an installed
extension whose `LatestVersion` string differs from its `Version` string,
if either string fails to parse as a semantic version the upgrade step is
silently skipped: no error is returned, no install/upgrade side effect
happens, and client creation proceeds by spawning the currently installed
version. -/
theorem CreateClient_unparseable_version_skips_upgrade {V C : Type} (env : CreateEnv V C)
    (a : AzdToolMetadata) (c : C)
    (hInst : a.extension.Installed = true)
    (hNe : a.extension.LatestVersion ≠ a.extension.Version)
    (hParse : env.NewVersion a.extension.Version = none ∨
      env.NewVersion a.extension.LatestVersion = none)
    (hns : 2 ≤ (splitDot a.extension.Namespace).length)
    (hStart : env.StartAndInit (splitDot a.extension.Namespace ++ ["server", "start"]) =
      .ok c) :
    a.CreateClient env =
      (Except.ok c,
        [SideEffect.spawn "azd" (splitDot a.extension.Namespace ++ ["server", "start"])]) := by
  have hstep : ensureInstalled env a.extension = (Except.ok (), []) := by
    unfold ensureInstalled
    rw [if_pos hInst, if_pos hNe]
    rcases hParse with hp | hp
    · rw [hp]
    · rw [hp]
      cases env.NewVersion a.extension.Version with
      | none => rfl
      | some v => rfl
  simp only [AzdToolMetadata.CreateClient]
  rw [hstep]
  simp only [if_neg (Nat.not_lt.mpr hns)]
  rw [hStart]
  rfl

/-- Oracle for the C10 witness: no version string parses, upgrade and
install would fail loudly if attempted, the spawn succeeds. -/
def envNoParseFix : CreateEnv Nat Nat :=
  ⟨fun _ => none, fun _ _ => false, fun _ => .error "must not run",
    fun _ => .error "must not run", fun _ => .ok 7⟩

def extNoParseFix : mcpExtensionMetadata :=
  ⟨"mcp.keyvault", "Azure Key Vault via azd", "azure.keyvault", "abc", "def", true⟩

/-- Witness for claim C10 at a concrete extension with unparseable version
strings. -/
theorem CreateClient_unparseable_version_skips_upgrade_witness :
    (AzdToolMetadata.mk extNoParseFix).CreateClient envNoParseFix =
      (Except.ok 7,
        [SideEffect.spawn "azd" (splitDot extNoParseFix.Namespace ++ ["server", "start"])]) :=
  CreateClient_unparseable_version_skips_upgrade envNoParseFix ⟨extNoParseFix⟩ 7
    rfl (by decide) (Or.inl rfl) (by decide) rfl

/-! ## Provider client cache

The cache step of the azure tool handler (`server.go`):

    toolClient, ok := toolClientCache[cacheKey]
    if !ok {
        toolClient, err = tm.CreateClient(ctx)
        if err != nil { return guidance }
        toolClientCache[cacheKey] = toolClient
    }

`create` is the outcome `tm.CreateClient(ctx)` would produce if invoked at
this call; the returned `Nat` counts how many times `CreateClient` (and with
it the establishment side effects: install, upgrade, spawn, handshake) ran
during the call. -/

def getOrCreateClient {C : Type} (create : Except String C) (key : String)
    (cache : List (String × C)) : Except String C × List (String × C) × Nat :=
  match lookupAssoc cache key with
  | some c => (.ok c, cache, 0)
  | none =>
    match create with
    | .error e => (.error e, cache, 1)
    | .ok c => (.ok c, insertOverwrite cache key c, 1)

/-- Claim C2: a second `getOrCreate` for the same id after a successful call
returns the identical client instance out of the cache, leaves the cache
unchanged, and runs the establishment zero further times (no health check,
no refresh) — regardless of what a fresh establishment would now produce;
the first call ran the establishment at most once, and exactly once when the
id was not yet cached. -/
theorem getOrCreate_second_call_cached {C : Type} (create₁ create₂ : Except String C)
    (key : String) (cache cache₁ : List (String × C)) (c : C) (n₁ : Nat)
    (h : getOrCreateClient create₁ key cache = (.ok c, cache₁, n₁)) :
    getOrCreateClient create₂ key cache₁ = (.ok c, cache₁, 0) ∧ n₁ ≤ 1 ∧
      (lookupAssoc cache key = none → n₁ = 1) := by
  unfold getOrCreateClient at h ⊢
  cases hl : lookupAssoc cache key with
  | some c₀ =>
    rw [hl] at h
    simp only [Prod.mk.injEq, Except.ok.injEq] at h
    obtain ⟨hc, hcache, hn⟩ := h
    subst hc hcache hn
    simp [hl]
  | none =>
    rw [hl] at h
    cases create₁ with
    | error e => simp at h
    | ok c' =>
      simp only [Prod.mk.injEq, Except.ok.injEq] at h
      obtain ⟨hc, hcache, hn⟩ := h
      subst hc hcache hn
      simp [lookupAssoc_insertOverwrite_self]

/-- Witness for claim C2: a cold cache, a first call that establishes client
`7`, and a second call whose fresh establishment would fail — yet the cached
`7` is returned with zero establishment runs. -/
theorem getOrCreate_second_call_cached_witness :
    getOrCreateClient (Except.error "azd is down") "storage" [("storage", (7 : Nat))] =
        (.ok 7, [("storage", 7)], 0) ∧ 1 ≤ 1 ∧
      (lookupAssoc ([] : List (String × Nat)) "storage" = none → 1 = 1) :=
  getOrCreate_second_call_cached (Except.ok 7) (Except.error "azd is down") "storage"
    [] [("storage", 7)] 7 1 rfl

/-- Claim C4: a failed establishment stores nothing — the call returns the
error with the cache unchanged (so the id is still absent) — and the next
call for the same id runs the full establishment again from scratch; when
that retry succeeds the fresh client is returned and cached.  The
establishment outcomes are those of `AzdToolMetadata.CreateClient` under two
external-world states `env₁` (failing) and `env₂` (succeeding). -/
theorem getOrCreate_failure_not_cached {V C : Type} (env₁ env₂ : CreateEnv V C)
    (a : AzdToolMetadata) (key : String) (cache : List (String × C)) (e : String) (c : C)
    (hmiss : lookupAssoc cache key = none)
    (hfail : (a.CreateClient env₁).1 = .error e)
    (hretry : (a.CreateClient env₂).1 = .ok c) :
    getOrCreateClient (a.CreateClient env₁).1 key cache = (.error e, cache, 1) ∧
      getOrCreateClient (a.CreateClient env₂).1 key cache =
        (.ok c, insertOverwrite cache key c, 1) := by
  rw [hfail, hretry]
  unfold getOrCreateClient
  rw [hmiss]
  exact ⟨rfl, rfl⟩

/-- Oracle for the C4 witness's first call: the install command exits
non-zero. -/
def envInstallFailFix : CreateEnv Nat Nat :=
  ⟨fun _ => none, fun _ _ => false, fun _ => .error "exit status 1",
    fun _ => .ok (), fun _ => .ok 9⟩

/-- Oracle for the C4 witness's second call: the install now succeeds and
the provider server starts. -/
def envInstallOkFix : CreateEnv Nat Nat :=
  ⟨fun _ => none, fun _ _ => false, fun _ => .ok (), fun _ => .ok (), fun _ => .ok 9⟩

def extUninstalledFix : mcpExtensionMetadata :=
  ⟨"mcp.servicebus", "Azure Service Bus via azd", "azure.servicebus", "", "1.0.0", false⟩

/-- Witness for claim C4: the failed install leaves the cold cache empty and
the retry installs, spawns and caches client `9`. -/
theorem getOrCreate_failure_not_cached_witness :
    getOrCreateClient ((AzdToolMetadata.mk extUninstalledFix).CreateClient envInstallFailFix).1
        "servicebus" ([] : List (String × Nat)) =
      (.error ("failed to install extension " ++ "mcp.servicebus" ++ ": " ++ "exit status 1"),
        [], 1) ∧
      getOrCreateClient ((AzdToolMetadata.mk extUninstalledFix).CreateClient envInstallOkFix).1
          "servicebus" ([] : List (String × Nat)) =
        (.ok 9, insertOverwrite [] "servicebus" 9, 1) :=
  getOrCreate_failure_not_cached envInstallFailFix envInstallOkFix ⟨extUninstalledFix⟩
    "servicebus" [] ("failed to install extension " ++ "mcp.servicebus" ++ ": " ++ "exit status 1")
    9 rfl rfl rfl

/-! ## The Go `azure` tool handler (learn/invoke router, `server.go`)

Request arguments as the Go handler's type assertions see them:
`args["tool"].(string)` is `some s` exactly when the key is present with a
string value, `args["learn"].(bool)` is `some b` exactly when present with a
boolean value.  The `intent` argument is declared (and required) in the tool
schema but never read by the Go handler; the `parameters` payload is opaque
to the router and forwarded verbatim (type `P`). -/

structure GoArgs (P : Type) where
  intent : Option String
  tool : Option String
  command : Option String
  params : Option P
  learn : Option Bool

/-- One entry of a provider's capability list (`mcp.Tool` name +
description), as returned by `ListTools`. -/
structure ToolDef where
  name : String
  description : String
  deriving DecidableEq

/-- The handler's collaborators: the startup-built `toolMetadataMap`, and
the per-client MCP operations.  `CreateClient` is the outcome
`tm.CreateClient(ctx)` would produce, `ListTools` and `CallTool` the child
server's responses. -/
structure HandlerEnv (C P : Type) where
  metaMap : List (String × ToolMetadata)
  CreateClient : ToolMetadata → Except String C
  ListTools : C → Except String (List ToolDef)
  CallTool : C → String → Option P → Except String String

/-- Structured form of the handler's returned tool result.  Listing results
keep their payload structured (the Go code marshals them to JSON; the
marshalling of these static structures is modelled as total); the guidance
constructors correspond one-to-one to the `mcp.NewToolResultText` guidance
messages, whose texts are given by the render functions below. -/
inductive HandlerResult where
  | rootListing
  | toolNotFound (name : String)
  | clientStartFailed (err : String)
  | learnListing (name : String) (tools : List ToolDef)
  | needToolAndCommand
  | callFailed (tool command err : String)
  | passThrough (result : String)
  deriving DecidableEq

/-- Faithful translation of the `azureTool` handler closure (`server.go`,
learn/invoke variant).  A `.error` result is the Go `return nil, err` path
(a raised hard error); `.ok` is a successful tool result.  The cache is
threaded explicitly (it is the package-level `toolClientCache`). -/
def azureHandler {C P : Type} (env : HandlerEnv C P) (cache : List (String × C))
    (args : GoArgs P) : Except String HandlerResult × List (String × C) :=
  let hasToolName := args.tool.isSome
  let toolName := args.tool.getD ""
  if args.learn = some true then
    if hasToolName ∧ toolName ≠ "" then
      match lookupAssoc env.metaMap toolName with
      | none => (.ok (.toolNotFound toolName), cache)
      | some tm =>
        match getOrCreateClient (env.CreateClient tm) toolName cache with
        | (.error e, cache', _) => (.ok (.clientStartFailed e), cache')
        | (.ok c, cache', _) =>
          match env.ListTools c with
          | .error e => (.error ("failed to get child tools: " ++ e), cache')
          | .ok tools => (.ok (.learnListing toolName tools), cache')
    else (.ok .rootListing, cache)
  else
    let hasCommandName := args.command.isSome
    let commandName := args.command.getD ""
    if ¬hasToolName ∨ ¬hasCommandName then (.ok .needToolAndCommand, cache)
    else
      match lookupAssoc env.metaMap toolName with
      | none => (.ok (.toolNotFound toolName), cache)
      | some tm =>
        match getOrCreateClient (env.CreateClient tm) toolName cache with
        | (.error e, cache', _) => (.ok (.clientStartFailed e), cache')
        | (.ok c, cache', _) =>
          match env.CallTool c commandName args.params with
          | .error e => (.ok (.callFailed toolName commandName e), cache')
          | .ok r => (.ok (.passThrough r), cache')

/-- The guidance text of the `Tool %s not found` result
(whitespace-normalized from the Go raw string literal). -/
def toolNotFoundText (name : String) : String :=
  "Tool " ++ name ++
    " not found\nRun again with the \"learn\" argument and empty \"tool\" to get a list of available tools and their parameters."

/-- `needle` occurs verbatim inside `haystack`. -/
def containsSub (needle haystack : String) : Prop :=
  ∃ pre post : String, haystack = pre ++ needle ++ post

/-! ## Mode classification (claim C1)

`goClassify` is the branch structure of `azureHandler` (which branch of the
Go handler a request reaches, independent of catalog and oracles).
`csClassify` is the C# `AzureTool.InvokeAsync` classification (lines
104–141), where `string.IsNullOrEmpty` collapses null and empty, so absent
string arguments are modelled as `""`. -/

inductive Mode where
  | rootLearn
  | providerLearn (provider : String)
  | invoke (tool command : String)
  | underspecified
  deriving DecidableEq

def goClassify {P : Type} (args : GoArgs P) : Mode :=
  if args.learn = some true then
    if args.tool.isSome ∧ args.tool.getD "" ≠ "" then .providerLearn (args.tool.getD "")
    else .rootLearn
  else if args.tool.isSome ∧ args.command.isSome then
    .invoke (args.tool.getD "") (args.command.getD "")
  else .underspecified

structure CsArgs where
  intent : String
  tool : String
  command : String
  learn : Bool
  deriving DecidableEq

/-- C# `AzureTool.InvokeAsync` classification: implicit promotion of a
bare intent to `learn`, then the three guarded branches, else guidance. -/
def csClassify (a : CsArgs) : Mode :=
  let learn :=
    if a.intent ≠ "" ∧ a.tool = "" ∧ a.command = "" ∧ a.learn = false then true else a.learn
  if learn = true ∧ a.tool = "" ∧ a.command = "" then .rootLearn
  else if learn = true ∧ a.tool ≠ "" ∧ a.command = "" then .providerLearn a.tool
  else if learn = false ∧ a.tool ≠ "" ∧ a.command ≠ "" then .invoke a.tool a.command
  else .underspecified

/-- The classification claim C1 states, written from the claim's words
(learn with no provider and no command → Root-Learn; learn with a provider
and no command → Provider-Learn; provider and command with learn
false/absent → Invoke; only intent → Root-Learn; anything else →
guidance), to be compared with the source-derived classifiers. -/
def specClassify (a : CsArgs) : Mode :=
  if a.learn = true ∧ a.tool = "" ∧ a.command = "" then .rootLearn
  else if a.learn = true ∧ a.tool ≠ "" ∧ a.command = "" then .providerLearn a.tool
  else if a.learn = false ∧ a.tool ≠ "" ∧ a.command ≠ "" then .invoke a.tool a.command
  else if a.intent ≠ "" ∧ a.tool = "" ∧ a.command = "" ∧ a.learn = false then .rootLearn
  else .underspecified

/-- Fixture environment for the C1 counterexample: empty catalog, all
oracles succeed (their values are irrelevant on the path taken). -/
def envIntentFix : HandlerEnv Nat String :=
  ⟨[], fun _ => .ok 0, fun _ => .ok [], fun _ _ _ => .ok ""⟩

/-- A request carrying only `intent` (no tool, no command, no learn). -/
def argsIntentOnly : GoArgs String :=
  ⟨some "deploy my app", none, none, none, none⟩

/-- Claim C1, counterexample: in the Go router a request carrying only
`intent` is *not* promoted to Root-Learn — the handler never reads `intent`
and returns the "tool and command are required" guidance instead. -/
theorem go_intent_only_not_promoted :
    goClassify argsIntentOnly = .underspecified ∧
      azureHandler envIntentFix [] argsIntentOnly = (.ok .needToolAndCommand, []) ∧
      Mode.underspecified ≠ Mode.rootLearn := by
  refine ⟨by decide, rfl, by decide⟩

/-- Claim C1, amended: the C# router classifies exactly as the claim states
(including the implicit promotion of a bare intent to Root-Learn and the
guidance catch-all).  The Go router differs in two ways forced by the
counterexample: `learn=true` with a non-empty provider resolves to
Provider-Learn whether or not a command is present, and a request carrying
only `intent` falls through to the guidance result (the Go handler has no
implicit promotion); otherwise `learn=true` resolves to Root-Learn,
provider-and-command with learn false/absent resolves to Invoke, and every
remaining shape yields the guidance result, never a raised error. -/
theorem router_mode_resolution_amended :
    (∀ a : CsArgs, csClassify a = specClassify a) ∧
    (∀ (P : Type) (args : GoArgs P) (t : String), args.learn = some true →
        args.tool = some t → t ≠ "" → goClassify args = .providerLearn t) ∧
    (∀ (P : Type) (args : GoArgs P), args.learn = some true →
        (args.tool = none ∨ args.tool = some "") → goClassify args = .rootLearn) ∧
    (∀ (P : Type) (args : GoArgs P) (t c : String), args.learn ≠ some true →
        args.tool = some t → args.command = some c → goClassify args = .invoke t c) ∧
    (∀ (P : Type) (args : GoArgs P), args.learn ≠ some true →
        (args.tool = none ∨ args.command = none) → goClassify args = .underspecified) ∧
    (∀ (C P : Type) (env : HandlerEnv C P) (cache : List (String × C)) (args : GoArgs P),
        goClassify args = .rootLearn → azureHandler env cache args = (.ok .rootListing, cache)) ∧
    (∀ (C P : Type) (env : HandlerEnv C P) (cache : List (String × C)) (args : GoArgs P),
        goClassify args = .underspecified →
          azureHandler env cache args = (.ok .needToolAndCommand, cache)) := by
  refine ⟨?_, ?_, ?_, ?_, ?_, ?_, ?_⟩
  · intro a
    rcases a with ⟨i, t, c, l⟩
    by_cases hi : i = "" <;> by_cases ht : t = "" <;> by_cases hc : c = "" <;>
      cases l <;> simp [csClassify, specClassify, hi, ht, hc]
  · intro P args t hL hT ht
    simp [goClassify, hL, hT, ht]
  · intro P args hL hT
    rcases hT with hT | hT <;> simp [goClassify, hL, hT]
  · intro P args t c hL hT hC
    simp [goClassify, hL, hT, hC]
  · intro P args hL hTC
    rcases hTC with h | h <;> simp [goClassify, hL, h]
  · intro C P env cache args h
    by_cases hL : args.learn = some true
    · simp only [goClassify, if_pos hL] at h
      by_cases hT : args.tool.isSome ∧ args.tool.getD "" ≠ ""
      · rw [if_pos hT] at h
        exact absurd h (by simp)
      · simp only [azureHandler, if_pos hL, if_neg hT]
    · simp only [goClassify, if_neg hL] at h
      by_cases hTC : args.tool.isSome ∧ args.command.isSome
      · rw [if_pos hTC] at h
        exact absurd h (by simp)
      · rw [if_neg hTC] at h
        exact absurd h (by simp)
  · intro C P env cache args h
    by_cases hL : args.learn = some true
    · simp only [goClassify, if_pos hL] at h
      by_cases hT : args.tool.isSome ∧ args.tool.getD "" ≠ ""
      · rw [if_pos hT] at h
        exact absurd h (by simp)
      · rw [if_neg hT] at h
        exact absurd h (by simp)
    · simp only [goClassify, if_neg hL] at h
      by_cases hTC : args.tool.isSome ∧ args.command.isSome
      · rw [if_pos hTC] at h
        exact absurd h (by simp)
      · simp only [azureHandler, if_neg hL, if_neg hTC]
        rw [if_pos (not_and_or.mp hTC)]

/-! ## Failure propagation (claims C5 and C6) -/

/-- Fixture for the C5 counterexample: `storage` is in the catalog, its
client starts fine, but its capability listing fails. -/
def envListFailFix : HandlerEnv Nat String :=
  ⟨[("storage", azdStorage)], fun _ => .ok 0, fun _ => .error "boom", fun _ _ _ => .ok ""⟩

/-- A Provider-Learn request for `storage`. -/
def argsLearnStorage : GoArgs String :=
  ⟨some "list my containers", some "storage", none, none, some true⟩

/-- Claim C5, counterexample: a capability-listing failure does *not*
degrade to a successful guidance response — the Go handler raises it as a
hard error (`return nil, fmt.Errorf("failed to get child tools: %w", err)`). -/
theorem listTools_failure_hard_error_example :
    (azureHandler envListFailFix [] argsLearnStorage).1 =
      .error ("failed to get child tools: " ++ "boom") := by
  rfl

/-- Claim C5, amended: within a router request, provider-not-found (in
learn and in invoke mode), client-establishment failure (in learn and in
invoke mode) and invocation failure all degrade to a successful response
carrying guidance text, but a capability-listing failure terminates the
request with a raised hard error.  (Discovery runs at server startup,
before any request; its failure aborts startup.) -/
theorem failure_propagation_amended :
    (∀ (C P : Type) (env : HandlerEnv C P) (cache : List (String × C)) (args : GoArgs P)
        (t : String), args.learn = some true → args.tool = some t → t ≠ "" →
        lookupAssoc env.metaMap t = none →
        (azureHandler env cache args).1 = .ok (.toolNotFound t)) ∧
    (∀ (C P : Type) (env : HandlerEnv C P) (cache : List (String × C)) (args : GoArgs P)
        (t c : String), args.learn ≠ some true → args.tool = some t → args.command = some c →
        lookupAssoc env.metaMap t = none →
        (azureHandler env cache args).1 = .ok (.toolNotFound t)) ∧
    (∀ (C P : Type) (env : HandlerEnv C P) (cache : List (String × C)) (args : GoArgs P)
        (t : String) (tm : ToolMetadata) (e : String), args.learn = some true →
        args.tool = some t → t ≠ "" → lookupAssoc env.metaMap t = some tm →
        lookupAssoc cache t = none → env.CreateClient tm = .error e →
        (azureHandler env cache args).1 = .ok (.clientStartFailed e)) ∧
    (∀ (C P : Type) (env : HandlerEnv C P) (cache : List (String × C)) (args : GoArgs P)
        (t c : String) (tm : ToolMetadata) (e : String), args.learn ≠ some true →
        args.tool = some t → args.command = some c → lookupAssoc env.metaMap t = some tm →
        lookupAssoc cache t = none → env.CreateClient tm = .error e →
        (azureHandler env cache args).1 = .ok (.clientStartFailed e)) ∧
    (∀ (C P : Type) (env : HandlerEnv C P) (cache : List (String × C)) (args : GoArgs P)
        (t c : String) (tm : ToolMetadata) (cl : C) (e : String), args.learn ≠ some true →
        args.tool = some t → args.command = some c → lookupAssoc env.metaMap t = some tm →
        lookupAssoc cache t = some cl → env.CallTool cl c args.params = .error e →
        (azureHandler env cache args).1 = .ok (.callFailed t c e)) ∧
    (∀ (C P : Type) (env : HandlerEnv C P) (cache : List (String × C)) (args : GoArgs P)
        (t : String) (tm : ToolMetadata) (cl : C) (e : String), args.learn = some true →
        args.tool = some t → t ≠ "" → lookupAssoc env.metaMap t = some tm →
        lookupAssoc cache t = some cl → env.ListTools cl = .error e →
        (azureHandler env cache args).1 = .error ("failed to get child tools: " ++ e)) := by
  refine ⟨?_, ?_, ?_, ?_, ?_, ?_⟩
  · intro C P env cache args t hL hT ht hm
    simp [azureHandler, hL, hT, ht, hm]
  · intro C P env cache args t c hL hT hC hm
    simp [azureHandler, hL, hT, hC, hm]
  · intro C P env cache args t tm e hL hT ht hm hcm hcr
    simp [azureHandler, getOrCreateClient, hL, hT, ht, hm, hcm, hcr]
  · intro C P env cache args t c tm e hL hT hC hm hcm hcr
    simp [azureHandler, getOrCreateClient, hL, hT, hC, hm, hcm, hcr]
  · intro C P env cache args t c tm cl e hL hT hC hm hch hcall
    simp [azureHandler, getOrCreateClient, hL, hT, hC, hm, hch, hcall]
  · intro C P env cache args t tm cl e hL hT ht hm hch hlist
    simp [azureHandler, getOrCreateClient, hL, hT, ht, hm, hch, hlist]

/-- Fixture for the C6 witness: an empty catalog. -/
def envEmptyCatalogFix : HandlerEnv Nat String :=
  ⟨[], fun _ => .ok 0, fun _ => .ok [], fun _ _ _ => .ok ""⟩

/-- An Invoke-mode request naming the absent provider `cosmos`. -/
def argsInvokeCosmos : GoArgs String :=
  ⟨none, some "cosmos", some "query", none, none⟩

/-- Claim C6: an Invoke-mode request whose provider id is absent from the
catalog returns a successful guidance result — no raised error, cache
untouched — and the guidance text names the missing provider id. -/
theorem invoke_not_found_guidance {C P : Type} (env : HandlerEnv C P)
    (cache : List (String × C)) (args : GoArgs P) (t c : String)
    (hL : args.learn ≠ some true) (hT : args.tool = some t) (hC : args.command = some c)
    (hm : lookupAssoc env.metaMap t = none) :
    azureHandler env cache args = (.ok (.toolNotFound t), cache) ∧
      containsSub t (toolNotFoundText t) := by
  constructor
  · simp [azureHandler, hL, hT, hC, hm]
  · exact ⟨"Tool ",
      " not found\nRun again with the \"learn\" argument and empty \"tool\" to get a list of available tools and their parameters.",
      rfl⟩

/-- Witness for claim C6 at the concrete missing provider `cosmos`. -/
theorem invoke_not_found_guidance_witness :
    azureHandler envEmptyCatalogFix [] argsInvokeCosmos =
        (.ok (.toolNotFound "cosmos"), []) ∧
      containsSub "cosmos" (toolNotFoundText "cosmos") :=
  invoke_not_found_guidance envEmptyCatalogFix [] argsInvokeCosmos "cosmos" "query"
    (by decide) rfl rfl rfl

/-! ## Sampling-assisted shortcut (claim C7, C# `AzureTool`)

One sampling round-trip is an oracle value of type
`Except String (Option String)`: `.error` models a thrown exception during
`RequestSamplingAsync`, `.ok none` a null `Content.Text`, `.ok (some s)`
the response text `s`.  `supportsSampling` is
`request.Server?.ClientCapabilities?.Sampling != null`; when it is false no
round-trip is attempted at all. -/

/-- C# `string.Trim()` on the character list (so that concrete instances
evaluate in the kernel). -/
def trimStr (s : String) : String :=
  String.mk (((s.data.dropWhile Char.isWhitespace).reverse.dropWhile Char.isWhitespace).reverse)

/-- Faithful translation of `GetToolNameFromIntentAsync`: trim the response
text; a thrown exception, a null or empty text, or the literal sentinel
`Unknown` yields `none` (no match); anything else is the chosen tool name. -/
def GetToolNameFromIntent (sampling : Except String (Option String)) : Option String :=
  match sampling with
  | .error _ => none
  | .ok none => none
  | .ok (some s) =>
    let toolName := trimStr s
    if toolName ≠ "" ∧ toolName ≠ "Unknown" then some toolName else none

/-- Faithful translation of `GetCommandAndParametersFromIntentAsync`.
`parseToolCall` models `JsonDocument.Parse` plus the two `TryGetProperty`
probes: `none` is a parse exception (malformed or non-JSON text, caught by
the surrounding `try`), `some (commandName?, parameters)` the extracted
`tool` string property (if present) and `parameters` object (or the empty
dictionary `emptyParams`). -/
def GetCommandAndParametersFromIntent {Params : Type}
    (sampling : Except String (Option String))
    (parseToolCall : String → Option (Option String × Params)) (emptyParams : Params) :
    Option String × Params :=
  match sampling with
  | .error _ => (none, emptyParams)
  | .ok txt =>
    let toolCallJson := trimStr (txt.getD "")
    if toolCallJson ≠ "" then
      match parseToolCall toolCallJson with
      | none => (none, emptyParams)
      | some (commandName, parameters) =>
        match commandName with
        | some c => if c ≠ "Unknown" then (some c, parameters) else (none, emptyParams)
        | none => (none, emptyParams)
    else (none, emptyParams)

/-- The shortcut wrapper of `RootLearnModeAsync` (lines 178–189): the plain
learn listing is the response unless sampling is supported *and* the intent
resolves to a tool name, in which case the router recurses into
Provider-Learn for that name. -/
def RootLearnMode {R : Type} (supportsSampling : Bool)
    (sampling : Except String (Option String)) (toolLearnMode : String → R)
    (learnResponse : R) : R :=
  if supportsSampling then
    match GetToolNameFromIntent sampling with
    | some toolName => toolLearnMode toolName
    | none => learnResponse
  else learnResponse

/-- The shortcut wrapper of `ToolLearnModeAsync` (lines 220–231): the plain
capability listing is the response unless sampling resolves the intent to a
concrete command, in which case the router recurses into Invoke. -/
def ToolLearnModeShortcut {R Params : Type} (supportsSampling : Bool)
    (sampling : Except String (Option String))
    (parseToolCall : String → Option (Option String × Params)) (emptyParams : Params)
    (commandMode : String → Params → R) (learnResponse : R) : R :=
  if supportsSampling then
    match GetCommandAndParametersFromIntent sampling parseToolCall emptyParams with
    | (some c, ps) => commandMode c ps
    | (none, _) => learnResponse
  else learnResponse

/-- Claim C7: whenever the sampling-assisted shortcut cannot resolve the
intent — no sampling support (no round-trip is attempted), a failed
round-trip, a null, empty, malformed/non-JSON or tool-property-less
response, or the literal sentinel `Unknown` (even surrounded by
whitespace) — the router returns the plain non-shortcut learn listing; the
total return type shows the sampling path never raises. -/
theorem sampling_fallback_best_effort :
    (∀ (R : Type) (sampling : Except String (Option String)) (tl : String → R) (lr : R),
        RootLearnMode false sampling tl lr = lr) ∧
    (∀ (R : Type) (e : String) (tl : String → R) (lr : R),
        RootLearnMode true (.error e) tl lr = lr) ∧
    (∀ (R : Type) (tl : String → R) (lr : R),
        RootLearnMode true (.ok none) tl lr = lr) ∧
    (∀ (R : Type) (s : String) (tl : String → R) (lr : R), trimStr s = "" →
        RootLearnMode true (.ok (some s)) tl lr = lr) ∧
    (∀ (R : Type) (s : String) (tl : String → R) (lr : R), trimStr s = "Unknown" →
        RootLearnMode true (.ok (some s)) tl lr = lr) ∧
    (∀ (R Params : Type) (sampling : Except String (Option String))
        (parse : String → Option (Option String × Params)) (ep : Params)
        (cm : String → Params → R) (lr : R),
        ToolLearnModeShortcut false sampling parse ep cm lr = lr) ∧
    (∀ (R Params : Type) (e : String) (parse : String → Option (Option String × Params))
        (ep : Params) (cm : String → Params → R) (lr : R),
        ToolLearnModeShortcut true (.error e) parse ep cm lr = lr) ∧
    (∀ (R Params : Type) (s : String) (parse : String → Option (Option String × Params))
        (ep : Params) (cm : String → Params → R) (lr : R), parse (trimStr s) = none →
        ToolLearnModeShortcut true (.ok (some s)) parse ep cm lr = lr) ∧
    (∀ (R Params : Type) (s : String) (parse : String → Option (Option String × Params))
        (ep ps : Params) (cm : String → Params → R) (lr : R),
        parse (trimStr s) = some (some "Unknown", ps) →
        ToolLearnModeShortcut true (.ok (some s)) parse ep cm lr = lr) ∧
    (∀ (R Params : Type) (s : String) (parse : String → Option (Option String × Params))
        (ep ps : Params) (cm : String → Params → R) (lr : R),
        parse (trimStr s) = some (none, ps) →
        ToolLearnModeShortcut true (.ok (some s)) parse ep cm lr = lr) := by
  refine ⟨?_, ?_, ?_, ?_, ?_, ?_, ?_, ?_, ?_, ?_⟩
  · intro R sampling tl lr
    rfl
  · intro R e tl lr
    rfl
  · intro R tl lr
    rfl
  · intro R s tl lr h
    simp [RootLearnMode, GetToolNameFromIntent, h]
  · intro R s tl lr h
    simp [RootLearnMode, GetToolNameFromIntent, h]
  · intro R Params sampling parse ep cm lr
    rfl
  · intro R Params e parse ep cm lr
    rfl
  · intro R Params s parse ep cm lr h
    by_cases hs : trimStr s = ""
    · simp [ToolLearnModeShortcut, GetCommandAndParametersFromIntent, hs]
    · simp [ToolLearnModeShortcut, GetCommandAndParametersFromIntent, hs, h]
  · intro R Params s parse ep ps cm lr h
    by_cases hs : trimStr s = ""
    · simp [ToolLearnModeShortcut, GetCommandAndParametersFromIntent, hs]
    · simp [ToolLearnModeShortcut, GetCommandAndParametersFromIntent, hs, h]
  · intro R Params s parse ep ps cm lr h
    by_cases hs : trimStr s = ""
    · simp [ToolLearnModeShortcut, GetCommandAndParametersFromIntent, hs]
    · simp [ToolLearnModeShortcut, GetCommandAndParametersFromIntent, hs, h]

end AzdMcp
